import Mathlib

/-!
Shallow embedding of `src/web_multi_search.py` (web-multi-search-skill).

The program fans a query out to several search-engine adapters, normalizes
raw records, aggregates the per-engine result lists with optional URL
deduplication, and renders the aggregate as JSON, CSV or text.

The engine adapters (`search_engines` library) are external collaborators:
their behaviour is passed in explicitly as a value of type `AdapterRun`
(either a list of raw records or a raised exception's message).  The query
text, page count, proxy and timeout only flow into the adapters, so they are
absorbed into the `AdapterRun` values and do not appear as parameters here.
Concurrent stderr interleaving of per-engine failure warnings is abstracted
to task order; `asyncio.gather` itself returns result lists in task order,
which the embedding reproduces by construction.
-/

set_option linter.unusedVariables false

namespace WebMultiSearch

/-- The canonical normalized record built in `search_engine` (lines 59-69):
`{"engine": ..., "host": ..., "link": ..., "title": ..., "text": ...}`. -/
structure Result where
  engine : String
  host : String
  link : String
  title : String
  text : String
  deriving Repr, DecidableEq

/-- A raw record as returned by an adapter: a dict whose `host`/`link`/
`title`/`text` keys may be absent (`r.get(k, "")` in the source). -/
structure RawRecord where
  host : Option String := none
  link : Option String := none
  title : Option String := none
  text : Option String := none
  deriving Repr, DecidableEq

/-- The six engine classes imported at line 17. -/
inductive Engine
  | bing
  | yahoo
  | startpage
  | aol
  | ask
  | torch
  deriving Repr, DecidableEq

/-- `engine_cls.__name__` for each engine class (line 57). -/
def Engine.className : Engine → String
  | .bing => "Bing"
  | .yahoo => "Yahoo"
  | .startpage => "Startpage"
  | .aol => "Aol"
  | .ask => "Ask"
  | .torch => "Torch"

/-- `WORKING_ENGINES` (lines 21-27), in dict insertion order. -/
def WORKING_ENGINES : List (String × Engine) :=
  [("bing", .bing), ("yahoo", .yahoo), ("startpage", .startpage),
   ("aol", .aol), ("ask", .ask)]

/-- `TOR_ENGINES` (lines 30-32). -/
def TOR_ENGINES : List (String × Engine) :=
  [("torch", .torch)]

/-- `ALL_ENGINES = {**WORKING_ENGINES, **TOR_ENGINES}` (line 34). -/
def ALL_ENGINES : List (String × Engine) :=
  WORKING_ENGINES ++ TOR_ENGINES

/-- Dict lookup `ALL_ENGINES[key]` guarded by `key in ALL_ENGINES`
(lines 94, 101). -/
def lookupEngine (key : String) : Option Engine :=
  (ALL_ENGINES.find? (fun p => p.1 = key)).map (fun p => p.2)

/-- The diagnostics written to stderr, abstracted from their exact text:
the unknown-engine warning (line 96), the per-engine failure warning
(line 73) and the no-valid-engines error (line 115). -/
inductive Warning
  | unknownEngine (requested : String)
  | engineFailed (engine : String) (message : String)
  | noValidEngines
  deriving Repr, DecidableEq

/-- Outcome of one adapter invocation `engine.search(query, pages)`:
either the raw records or the message of the exception it raised
(any failure, timeouts included, surfaces as a raised exception). -/
abbrev AdapterRun := Except String (List RawRecord)

/-- ASCII lowercasing of one character, as Python `str.lower` acts on the
ASCII registry names. -/
def lowerChar : Char → Char
  | 'A' => 'a'
  | 'B' => 'b'
  | 'C' => 'c'
  | 'D' => 'd'
  | 'E' => 'e'
  | 'F' => 'f'
  | 'G' => 'g'
  | 'H' => 'h'
  | 'I' => 'i'
  | 'J' => 'j'
  | 'K' => 'k'
  | 'L' => 'l'
  | 'M' => 'm'
  | 'N' => 'n'
  | 'O' => 'o'
  | 'P' => 'p'
  | 'Q' => 'q'
  | 'R' => 'r'
  | 'S' => 's'
  | 'T' => 't'
  | 'U' => 'u'
  | 'V' => 'v'
  | 'W' => 'w'
  | 'X' => 'x'
  | 'Y' => 'y'
  | 'Z' => 'z'
  | c => c

/-- The whitespace characters Python `str.strip` removes (ASCII range). -/
def isSpaceChar (c : Char) : Bool :=
  c = ' ' ∨ c = '\t' ∨ c = '\n' ∨ c = '\r' ∨ c = '\x0b' ∨ c = '\x0c'

/-- Python `s.strip()`: drop whitespace from both ends. -/
def pyStrip (s : String) : String :=
  String.mk (((s.data.dropWhile isSpaceChar).reverse.dropWhile isSpaceChar).reverse)

/-- Python `s.lower()` (ASCII range). -/
def pyLower (s : String) : String :=
  String.mk (s.data.map lowerChar)

/-- `name.lower().strip()` (line 93). -/
def normalizeName (n : String) : String :=
  pyStrip (pyLower n)

/-- The dict built per raw record at lines 61-69: every field is filled
via `r.get(field, "")` and the record is tagged with the engine name. -/
def normalizeRecord (engineName : String) (r : RawRecord) : Result :=
  { engine := engineName
    host := r.host.getD ""
    link := r.link.getD ""
    title := r.title.getD ""
    text := r.text.getD "" }

/-- `search_engine` (lines 37-78): on success, map every raw record
through normalization; on any exception, print a warning naming the
engine and return the empty list.  The adapter call itself is the
`run` argument. -/
def search_engine (e : Engine) (run : AdapterRun) : List Result × List Warning :=
  match run with
  | .ok raws => (raws.map (normalizeRecord e.className), [])
  | .error msg => ([], [Warning.engineFailed e.className msg])

/-- The name-resolution loop of `multi_search` (lines 92-112): for each
requested name in order, either append the engine class to the task list
or emit an unknown-engine warning and skip it. -/
def resolveEngines : List String → List Engine × List Warning
  | [] => ([], [])
  | n :: rest =>
    match lookupEngine (normalizeName n) with
    | some e =>
      let p := resolveEngines rest
      (e :: p.1, p.2)
    | none =>
      let p := resolveEngines rest
      (p.1, Warning.unknownEngine n :: p.2)

/-- The aggregation loop of `multi_search` (lines 120-127) over the
concatenation of the per-engine lists, carrying the `seen_urls` set
(modelled as a list of links with membership): a record is skipped iff
`unique_urls and item["link"] in seen_urls`; otherwise its link is added
to the seen set and the record is appended. -/
def aggLoop (unique_urls : Bool) : List Result → List String → List Result
  | [], _ => []
  | item :: rest, seen =>
    if unique_urls ∧ item.link ∈ seen then
      aggLoop unique_urls rest seen
    else
      item :: aggLoop unique_urls rest (item.link :: seen)

/-- The two nested `for` loops at lines 122-127 process exactly the
concatenation of `results_lists` in order, with one `seen_urls` set
persisting across lists. -/
def aggregate (unique_urls : Bool) (results_lists : List (List Result)) : List Result :=
  aggLoop unique_urls results_lists.flatten []

/-- `multi_search` (lines 81-129).  `runs` gives each launched task's
adapter outcome, aligned with the resolved task list (the order
`asyncio.gather` preserves).  `unique_domains` is only forwarded to the
external engines (line 53: `engine.ignore_duplicate_domains`); the
aggregation loop never reads it. -/
def multi_search (engines : List String) (unique_urls unique_domains : Bool)
    (runs : List AdapterRun) : List Result × List Warning :=
  let p := resolveEngines engines
  let tasks := p.1
  let warns := p.2
  if tasks.isEmpty then
    ([], warns ++ [Warning.noValidEngines])
  else
    let outcomes := (tasks.zip runs).map (fun q => search_engine q.1 q.2)
    let results_lists := outcomes.map (fun o => o.1)
    let failWarns := (outcomes.map (fun o => o.2)).flatten
    (aggregate unique_urls results_lists, warns ++ failWarns)

/-- The per-task result lists `results_lists` of `multi_search`
(line 118), as a function of the requested names and adapter outcomes. -/
def sourceLists (names : List String) (runs : List AdapterRun) : List (List Result) :=
  (((resolveEngines names).1).zip runs).map (fun q => (search_engine q.1 q.2).1)

/-- One hexadecimal digit, lower case (for JSON control-character escapes). -/
def hexDigit (n : Nat) : Char :=
  if n = 0 then '0' else if n = 1 then '1' else if n = 2 then '2'
  else if n = 3 then '3' else if n = 4 then '4' else if n = 5 then '5'
  else if n = 6 then '6' else if n = 7 then '7' else if n = 8 then '8'
  else if n = 9 then '9' else if n = 10 then 'a' else if n = 11 then 'b'
  else if n = 12 then 'c' else if n = 13 then 'd' else if n = 14 then 'e'
  else 'f'

/-- How `json.dumps` with `ensure_ascii=False` escapes one character inside
a JSON string: backslash, quote, the short control escapes, `\u00XX` for
remaining control characters, everything else verbatim. -/
def jsonEscapeChar (c : Char) : List Char :=
  if c = '\\' then ['\\', '\\']
  else if c = '"' then ['\\', '"']
  else if c = '\n' then ['\\', 'n']
  else if c = '\r' then ['\\', 'r']
  else if c = '\t' then ['\\', 't']
  else if c = '\x08' then ['\\', 'b']
  else if c = '\x0c' then ['\\', 'f']
  else if c.toNat < 32 then
    ['\\', 'u', '0', '0', hexDigit (c.toNat / 16), hexDigit (c.toNat % 16)]
  else [c]

/-- A JSON string literal for `s`, as `json.dumps(..., ensure_ascii=False)`
produces it. -/
def jsonString (s : String) : String :=
  String.mk ('"' :: s.data.flatMap jsonEscapeChar ++ ['"'])

/-- One result dict rendered by `json.dumps(results, indent=2)`: keys in
insertion order (engine, host, link, title, text), two-space indentation. -/
def resultToJsonObject (r : Result) : String :=
  "  \x7b\n    \"engine\": " ++ jsonString r.engine ++
  ",\n    \"host\": " ++ jsonString r.host ++
  ",\n    \"link\": " ++ jsonString r.link ++
  ",\n    \"title\": " ++ jsonString r.title ++
  ",\n    \"text\": " ++ jsonString r.text ++
  "\n  \x7d"

/-- `format_json` (lines 132-134): `json.dumps(results, indent=2,
ensure_ascii=False)`.  `json.dumps` renders the empty list as `[]` and a
non-empty list as a bracketed, comma-separated block of indented objects. -/
def format_json (results : List Result) : String :=
  if results.isEmpty then "[]"
  else "[\n" ++ String.intercalate ",\n" (results.map resultToJsonObject) ++ "\n]"

/-- `csv` module minimal quoting: a field is quoted iff it contains the
delimiter, the quote character or a CR/LF, with embedded quotes doubled. -/
def csvField (s : String) : String :=
  if s.data.any (fun c => c = ',' ∨ c = '"' ∨ c = '\n' ∨ c = '\r') then
    String.mk ('"' :: s.data.flatMap (fun c => if c = '"' then ['"', '"'] else [c]) ++ ['"'])
  else s

/-- One CSV row with the `csv` module's default `\r\n` terminator. -/
def csvRow (fields : List String) : String :=
  String.intercalate "," (fields.map csvField) ++ "\r\n"

/-- `format_csv` (lines 137-148): empty input short-circuits to the empty
string; otherwise a header row in the fixed field order followed by one
row per result. -/
def format_csv (results : List Result) : String :=
  if results.isEmpty then ""
  else
    csvRow ["engine", "host", "link", "title", "text"] ++
    String.join (results.map (fun r => csvRow [r.engine, r.host, r.link, r.title, r.text]))

/-- Python `r["text"][:200]`: the first 200 characters. -/
def pyTake (n : Nat) (s : String) : String :=
  String.mk (s.data.take n)

/-- The per-result lines of `format_text` (lines 156-161), with the
1-based index `i`: the header line, the indented link, the truncated text
when non-empty, and a blank separator line. -/
def textLines : Nat → List Result → List String
  | _, [] => []
  | i, r :: rest =>
    (("[" ++ toString i ++ "] (" ++ r.engine ++ ") " ++ r.title) ::
     ("    " ++ r.link) ::
     (if r.text = "" then [] else ["    " ++ pyTake 200 r.text])) ++
    ("" :: textLines (i + 1) rest)

/-- `format_text` (lines 151-162): the "No results found." sentinel for an
empty list, otherwise the enumerated lines joined with newlines. -/
def format_text (results : List Result) : String :=
  if results.isEmpty then "No results found."
  else String.intercalate "\n" (textLines 1 results)

/-! ### Helper lemmas about the aggregation loop -/

/-- With URL-dedup off the loop never drops a record. -/
theorem aggLoop_false (l : List Result) (seen : List String) :
    aggLoop false l seen = l := by
  induction l generalizing seen with
  | nil => rfl
  | cons item rest ih =>
    rw [aggLoop, if_neg (by simp)]
    rw [ih]

/-- The loop's output is a sublist of its input (records keep their
original relative positions). -/
theorem aggLoop_sublist (u : Bool) (l : List Result) (seen : List String) :
    (aggLoop u l seen).Sublist l := by
  induction l generalizing seen with
  | nil => simp [aggLoop]
  | cons item rest ih =>
    rw [aggLoop]
    split
    · exact (ih seen).cons item
    · exact (ih (item.link :: seen)).cons₂ item

/-- With URL-dedup on, every surviving record has a link outside the
incoming seen set and is the first record of the input with its link. -/
theorem aggLoop_mem (l : List Result) (seen : List String) :
    ∀ r ∈ aggLoop true l seen,
      r.link ∉ seen ∧ (l.filter (fun y => y.link = r.link)).head? = some r := by
  induction l generalizing seen with
  | nil => intro r hr; simp [aggLoop] at hr
  | cons item rest ih =>
    intro r hr
    rw [aggLoop] at hr
    split at hr
    · rename_i hcond
      have hmem : item.link ∈ seen := hcond.2
      obtain ⟨hns, hhead⟩ := ih seen r hr
      have hne : (item.link = r.link) = False := by
        simp only [eq_iff_iff, iff_false]
        intro h
        exact hns (h ▸ hmem)
      refine ⟨hns, ?_⟩
      rw [List.filter_cons, if_neg (by simp [hne])]
      exact hhead
    · rename_i hcond
      have hni : item.link ∉ seen := fun hm => hcond ⟨rfl, hm⟩
      rcases List.mem_cons.mp hr with hr | hr
      · subst hr
        refine ⟨hni, ?_⟩
        rw [List.filter_cons, if_pos (by simp)]
        rfl
      · have hns' : r.link ∉ item.link :: seen := (ih (item.link :: seen) r hr).1
        have hhead' := (ih (item.link :: seen) r hr).2
        have hne : (item.link = r.link) = False := by
          simp only [eq_iff_iff, iff_false]
          intro h
          apply hns'
          rw [← h]
          exact List.mem_cons_self _ _
        refine ⟨fun hm => hns' (List.mem_cons_of_mem _ hm), ?_⟩
        rw [List.filter_cons, if_neg (by simp [hne])]
        exact hhead'

/-- With URL-dedup on, the surviving records carry pairwise distinct
links. -/
theorem aggLoop_pairwise (l : List Result) (seen : List String) :
    (aggLoop true l seen).Pairwise (fun a b => a.link ≠ b.link) := by
  induction l generalizing seen with
  | nil => simp [aggLoop]
  | cons item rest ih =>
    rw [aggLoop]
    split
    · exact ih seen
    · refine List.Pairwise.cons ?_ (ih (item.link :: seen))
      intro b hb heq
      apply (aggLoop_mem rest (item.link :: seen) b hb).1
      rw [← heq]
      exact List.mem_cons_self _ _

/-- With URL-dedup on, every input record's link is either already in the
incoming seen set or represented by some surviving record. -/
theorem aggLoop_cover (l : List Result) (seen : List String) :
    ∀ r ∈ l, r.link ∈ seen ∨ ∃ s ∈ aggLoop true l seen, s.link = r.link := by
  induction l generalizing seen with
  | nil => intro r hr; simp at hr
  | cons item rest ih =>
    intro r hr
    rw [aggLoop]
    split
    · rename_i hcond
      rcases List.mem_cons.mp hr with h | h
      · subst h; exact Or.inl hcond.2
      · exact ih seen r h
    · rcases List.mem_cons.mp hr with h | h
      · subst h
        exact Or.inr ⟨r, List.mem_cons_self _ _, rfl⟩
      · rcases ih (item.link :: seen) r h with hmem | ⟨s, hs, hlink⟩
        · rcases List.mem_cons.mp hmem with heq | hseen
          · exact Or.inr ⟨item, List.mem_cons_self _ _, heq.symm⟩
          · exact Or.inl hseen
        · exact Or.inr ⟨s, List.mem_cons_of_mem _ hs, hlink⟩

/-- A list pairwise avoiding two simultaneous hits of `p` holds at most
one element satisfying `p`. -/
theorem countP_le_one_of_pairwise {α : Type} (p : α → Bool) (l : List α)
    (h : l.Pairwise (fun a b => ¬(p a ∧ p b))) : l.countP p ≤ 1 := by
  induction l with
  | nil => simp
  | cons a l ih =>
    rw [List.countP_cons]
    rcases List.pairwise_cons.mp h with ⟨ha, hl⟩
    by_cases hp : p a
    · have h0 : l.countP p = 0 := by
        rw [List.countP_eq_zero]
        intro b hb hpb
        exact ha b hb ⟨hp, hpb⟩
      simp [h0, hp]
    · simp only [hp, if_false]
      simpa using ih hl

/-! ### Helper lemmas about `multi_search` -/

/-- The result component of `multi_search` is always the aggregation of
the per-task lists (when no task was launched, both sides are empty). -/
theorem multi_search_fst (names : List String) (u d : Bool) (runs : List AdapterRun) :
    (multi_search names u d runs).1 = aggregate u (sourceLists names runs) := by
  simp only [multi_search, sourceLists]
  split
  · rename_i h
    rw [List.isEmpty_iff.mp h]
    rfl
  · simp only [List.map_map]
    rfl

/-- The diagnostics of `multi_search` when at least one task was
launched: the resolution warnings followed by the per-task failure
warnings in task order. -/
theorem multi_search_snd (names : List String) (u d : Bool) (runs : List AdapterRun)
    (h : (resolveEngines names).1 ≠ []) :
    (multi_search names u d runs).2
      = (resolveEngines names).2 ++
        ((((resolveEngines names).1.zip runs).map (fun q => (search_engine q.1 q.2).2)).flatten) := by
  simp only [multi_search]
  split
  · rename_i hh
    exact absurd (List.isEmpty_iff.mp hh) h
  · simp only [List.map_map]
    rfl

/-- Name resolution is a homomorphism for list concatenation: each
requested name is processed independently, in order. -/
theorem resolve_append (names1 names2 : List String) :
    resolveEngines (names1 ++ names2)
      = ((resolveEngines names1).1 ++ (resolveEngines names2).1,
         (resolveEngines names1).2 ++ (resolveEngines names2).2) := by
  induction names1 with
  | nil => simp [resolveEngines]
  | cons n rest ih =>
    cases h : lookupEngine (normalizeName n) with
    | some e => simp [resolveEngines, h, ih]
    | none => simp [resolveEngines, h, ih]

/-- The task list holds one entry per requested occurrence that resolves
to the given engine. -/
theorem resolve_count (names : List String) (e : Engine) :
    ((resolveEngines names).1).count e
      = names.countP (fun n => lookupEngine (normalizeName n) = some e) := by
  induction names with
  | nil => rfl
  | cons n rest ih =>
    cases h : lookupEngine (normalizeName n) with
    | some e' =>
      by_cases he : e' = e
      · subst he
        simp [resolveEngines, h, List.count_cons, List.countP_cons, ih]
      · simp [resolveEngines, h, List.count_cons, List.countP_cons, ih, he]
    | none => simp [resolveEngines, h, List.countP_cons, ih]

/-! ### Claim theorems -/

/-- C1, counterexample to the claim as stated: requesting only unknown
source names does not produce an error value or raised exception —
`multi_search` returns normally with an empty result list (and `main`
would go on to print it and exit with status 0); the hard failure the
claim asserts does not exist, only diagnostics on stderr. -/
theorem C1_counterexample :
    (multi_search ["foo", "bar"] false false []).1 = []
    ∧ (multi_search ["foo", "bar"] false false []).2
        = [Warning.unknownEngine "foo", Warning.unknownEngine "bar",
           Warning.noValidEngines] := by
  exact ⟨by decide, by decide⟩

/-- C1 (amended): when every requested name is unknown, `multi_search`
resolves zero tasks — so no adapter is invoked and no network activity
occurs — emits one unknown-name warning per request plus the
no-valid-engines error diagnostic, and returns the empty result list as
a normal value (soft success; it neither raises nor produces a non-zero
exit). -/
theorem C1_no_valid_sources_soft_failure (names : List String) (u d : Bool)
    (runs : List AdapterRun)
    (h : ∀ n ∈ names, lookupEngine (normalizeName n) = none) :
    (resolveEngines names).1 = []
    ∧ multi_search names u d runs
        = ([], names.map Warning.unknownEngine ++ [Warning.noValidEngines]) := by
  have hres : ∀ ns : List String, (∀ n ∈ ns, lookupEngine (normalizeName n) = none) →
      resolveEngines ns = ([], ns.map Warning.unknownEngine) := by
    intro ns
    induction ns with
    | nil => intro _; rfl
    | cons n rest ih =>
      intro hh
      have h1 : lookupEngine (normalizeName n) = none := hh n (List.mem_cons_self _ _)
      have h2 := ih (fun m hm => hh m (List.mem_cons_of_mem _ hm))
      simp [resolveEngines, h1, h2]
  have h0 := hres names h
  refine ⟨by rw [h0], ?_⟩
  simp only [multi_search, h0]
  rfl

/-- C1 witness: the amended statement at the concrete all-unknown request. -/
theorem C1_witness :
    (resolveEngines ["foo", "bar"]).1 = []
    ∧ multi_search ["foo", "bar"] false false []
        = ([], ["foo", "bar"].map Warning.unknownEngine ++ [Warning.noValidEngines]) :=
  C1_no_valid_sources_soft_failure ["foo", "bar"] false false [] (by decide)

/-- C2 (code bug): at the failing input — `--unique-domains` set, URL
dedup off, two engines each returning one record with host
"example.com" but different links — both records survive aggregation,
because the merge loop of `multi_search` checks only `link` and only
when `unique_urls` is set; `unique_domains` is merely forwarded to each
engine's internal filter, which cannot act across engines, contradicting
the flag's documented cross-engine domain deduplication. -/
theorem C2_domain_dedup_not_applied :
    ((multi_search ["bing", "yahoo"] false true
        [Except.ok [{ host := some "example.com", link := some "https://a.example/1" }],
         Except.ok [{ host := some "example.com", link := some "https://b.example/2" }]]).1).map
        Result.host
      = ["example.com", "example.com"] := by
  decide

/-- C3: with URL-dedup enabled the aggregate of `multi_search` is a
sublist of the concatenated per-source lists (survivors keep their
original relative positions), no two surviving records share a non-empty
link, each survivor is the first record of the concatenation carrying
its link, and every link of the concatenation is represented. -/
theorem C3_url_dedup_first_wins (names : List String) (d : Bool) (runs : List AdapterRun) :
    ((multi_search names true d runs).1).Sublist (sourceLists names runs).flatten
    ∧ ((multi_search names true d runs).1).Pairwise
        (fun a b => a.link = b.link → a.link = "")
    ∧ (∀ s ∈ (multi_search names true d runs).1,
        ((sourceLists names runs).flatten.filter (fun y => y.link = s.link)).head? = some s)
    ∧ ∀ r ∈ (sourceLists names runs).flatten,
        ∃ s ∈ (multi_search names true d runs).1, s.link = r.link := by
  rw [multi_search_fst]
  unfold aggregate
  refine ⟨aggLoop_sublist _ _ _, ?_, ?_, ?_⟩
  · exact (aggLoop_pairwise _ _).imp (fun h heq => absurd heq h)
  · intro s hs
    exact (aggLoop_mem _ _ s hs).2
  · intro r hr
    rcases aggLoop_cover _ [] r hr with hmem | hex
    · exact absurd hmem (List.not_mem_nil _)
    · exact hex

/-- C3 witness: a duplicated link across one source's two records leaves
a surviving record with that link in the aggregate. -/
theorem C3_witness :
    ∃ s ∈ (multi_search ["bing"] true false
        [Except.ok [{ link := some "https://a.example/1" },
                    { link := some "https://a.example/1" }]]).1,
      s.link = "https://a.example/1" := by
  have h := C3_url_dedup_first_wins ["bing"] false
      [Except.ok [{ link := some "https://a.example/1" },
                  { link := some "https://a.example/1" }]]
  exact h.2.2.2
    { engine := "Bing", host := "", link := "https://a.example/1", title := "", text := "" }
    (by decide)

/-- C4: with both dedup flags false and every adapter succeeding, the
aggregate of `multi_search` equals the concatenation of the per-source
normalized lists in source-resolution order, and its length is the sum
of the per-source raw result counts. -/
theorem C4_no_dedup_concatenation (names : List String) (raws : List (List RawRecord))
    (hne : (resolveEngines names).1 ≠ [])
    (hlen : raws.length = ((resolveEngines names).1).length) :
    (multi_search names false false (raws.map Except.ok)).1
      = (sourceLists names (raws.map Except.ok)).flatten
    ∧ ((multi_search names false false (raws.map Except.ok)).1).length
      = (raws.map List.length).sum := by
  have h1 : (multi_search names false false (raws.map Except.ok)).1
      = (sourceLists names (raws.map Except.ok)).flatten := by
    rw [multi_search_fst]
    unfold aggregate
    exact aggLoop_false _ _
  refine ⟨h1, ?_⟩
  rw [h1, List.length_flatten]
  unfold sourceLists
  rw [List.zip_map_right, List.map_map, List.map_map]
  have hfun : ((List.length ∘ fun q : Engine × AdapterRun => (search_engine q.1 q.2).1)
        ∘ Prod.map id Except.ok)
      = fun q : Engine × List RawRecord => q.2.length := by
    funext q
    cases q with
    | mk a b => simp [search_engine, Prod.map]
  rw [hfun]
  have h2 : ∀ (ts : List Engine) (rs : List (List RawRecord)), rs.length = ts.length →
      List.map (fun q : Engine × List RawRecord => q.2.length) (ts.zip rs)
        = List.map List.length rs := by
    intro ts
    induction ts with
    | nil =>
      intro rs hh
      cases rs with
      | nil => rfl
      | cons a b => simp at hh
    | cons t ts ih =>
      intro rs hh
      cases rs with
      | nil => simp at hh
      | cons r rs' =>
        simp only [List.zip_cons_cons, List.map_cons]
        rw [ih rs' (by simpa using hh)]
  rw [h2 _ _ hlen]

/-- C4 witness: two sources returning one and two records respectively
aggregate to their concatenation of length three. -/
theorem C4_witness :
    (multi_search ["bing", "yahoo"] false false
        (([[{ link := some "https://a.example/1" }],
           [{ link := some "https://b.example/1" }, { link := some "https://b.example/2" }]] :
          List (List RawRecord)).map Except.ok)).1
      = (sourceLists ["bing", "yahoo"]
          (([[{ link := some "https://a.example/1" }],
             [{ link := some "https://b.example/1" }, { link := some "https://b.example/2" }]] :
            List (List RawRecord)).map Except.ok)).flatten
    ∧ ((multi_search ["bing", "yahoo"] false false
        (([[{ link := some "https://a.example/1" }],
           [{ link := some "https://b.example/1" }, { link := some "https://b.example/2" }]] :
          List (List RawRecord)).map Except.ok)).1).length
      = (([[{ link := some "https://a.example/1" }],
           [{ link := some "https://b.example/1" }, { link := some "https://b.example/2" }]] :
          List (List RawRecord)).map List.length).sum :=
  C4_no_dedup_concatenation ["bing", "yahoo"] _ (by decide) (by decide)

/-- C5: a failing adapter run is converted into an empty contribution
plus a warning naming its engine: the aggregate equals the one obtained
when that task instead returns zero records (so every other source's
results are untouched), and the failure surfaces as a warning value, not
an exception. -/
theorem C5_failure_isolation (names : List String) (u d : Bool)
    (t1 t2 : List Engine) (e : Engine) (r1 r2 : List AdapterRun) (msg : String)
    (htasks : (resolveEngines names).1 = t1 ++ e :: t2)
    (hlen : t1.length = r1.length) :
    (multi_search names u d (r1 ++ Except.error msg :: r2)).1
      = (multi_search names u d (r1 ++ Except.ok [] :: r2)).1
    ∧ Warning.engineFailed e.className msg
        ∈ (multi_search names u d (r1 ++ Except.error msg :: r2)).2 := by
  have hne : (resolveEngines names).1 ≠ [] := by
    rw [htasks]
    exact List.append_ne_nil_of_right_ne_nil _ (List.cons_ne_nil _ _)
  constructor
  · rw [multi_search_fst, multi_search_fst]
    unfold sourceLists
    rw [htasks, List.zip_append hlen, List.zip_append hlen]
    simp [search_engine]
  · rw [multi_search_snd _ _ _ _ hne, htasks, List.zip_append hlen]
    simp [search_engine]

/-- C5 witness: source A returns three records and source B times out;
the aggregate equals the one with B contributing nothing, and a warning
names B. -/
theorem C5_witness :
    (multi_search ["bing", "yahoo"] false false
        ([Except.ok [{ link := some "https://a.example/1" },
                     { link := some "https://b.example/1" },
                     { link := some "https://b.example/2" }]] ++ Except.error "timeout" :: [])).1
      = (multi_search ["bing", "yahoo"] false false
          ([Except.ok [{ link := some "https://a.example/1" },
                       { link := some "https://b.example/1" },
                       { link := some "https://b.example/2" }]] ++ Except.ok [] :: [])).1
    ∧ Warning.engineFailed Engine.yahoo.className "timeout"
        ∈ (multi_search ["bing", "yahoo"] false false
            ([Except.ok [{ link := some "https://a.example/1" },
                         { link := some "https://b.example/1" },
                         { link := some "https://b.example/2" }]] ++
             Except.error "timeout" :: [])).2 :=
  C5_failure_isolation ["bing", "yahoo"] false false [Engine.bing] [] Engine.yahoo
    [Except.ok [{ link := some "https://a.example/1" },
                { link := some "https://b.example/1" },
                { link := some "https://b.example/2" }]] [] "timeout"
    (by decide) (by decide)

/-- C6: unknown requested names each produce exactly one warning, in
request order, and are dropped; resolution proceeds with precisely the
names whose case-folded, trimmed form is in the registry, and no error
value is produced (the function is total).  Concretely, "bing,foo"
resolves to Bing only, with one warning for "foo". -/
theorem C6_unknown_names_warn_and_drop (names : List String) :
    (resolveEngines names).2
      = (names.filter (fun n => (lookupEngine (normalizeName n)).isNone)).map
          Warning.unknownEngine
    ∧ (resolveEngines names).1
      = names.filterMap (fun n => lookupEngine (normalizeName n))
    ∧ resolveEngines ["bing", "foo"] = ([Engine.bing], [Warning.unknownEngine "foo"]) := by
  refine ⟨?_, ?_, by decide⟩
  · induction names with
    | nil => rfl
    | cons n rest ih =>
      cases h : lookupEngine (normalizeName n) with
      | some e => simp [resolveEngines, h, List.filter_cons, ih]
      | none => simp [resolveEngines, h, List.filter_cons, ih]
  · induction names with
    | nil => rfl
    | cons n rest ih =>
      cases h : lookupEngine (normalizeName n) with
      | some e => simp [resolveEngines, h, List.filterMap_cons, ih]
      | none => simp [resolveEngines, h, List.filterMap_cons, ih]

/-- C7: resolution treats each requested occurrence independently
(concatenation homomorphism), keeps repeated valid names with their
multiplicity (one task per occurrence), and with dedup off both runs of
a repeated engine contribute their results to the aggregate. -/
theorem C7_repeated_names_run_per_occurrence (names1 names2 : List String) (e : Engine) :
    (resolveEngines (names1 ++ names2)).1
      = (resolveEngines names1).1 ++ (resolveEngines names2).1
    ∧ ((resolveEngines (names1 ++ names2)).1).count e
      = (names1 ++ names2).countP (fun n => lookupEngine (normalizeName n) = some e)
    ∧ (resolveEngines ["bing", "bing"]).1 = [Engine.bing, Engine.bing]
    ∧ (multi_search ["bing", "bing"] false false
        [Except.ok [{ link := some "https://a.example/1" }],
         Except.ok [{ link := some "https://b.example/1" }]]).1
      = [normalizeRecord "Bing" { link := some "https://a.example/1" },
         normalizeRecord "Bing" { link := some "https://b.example/1" }] := by
  refine ⟨?_, resolve_count _ e, by decide, by decide⟩
  rw [resolve_append]

/-- C8: normalization of an adapter's raw records is total: every output
field is a string, equal to the raw field's value when present and to
the empty string when the field is missing, and every record is tagged
with the engine's non-empty class name. -/
theorem C8_normalization_total (e : Engine) (raws : List RawRecord) :
    (∀ r ∈ (search_engine e (Except.ok raws)).1, r.engine = e.className ∧ r.engine ≠ "")
    ∧ (∀ raw : RawRecord, raw.host = none → (normalizeRecord e.className raw).host = "")
    ∧ (∀ raw : RawRecord, raw.link = none → (normalizeRecord e.className raw).link = "")
    ∧ (∀ raw : RawRecord, raw.title = none → (normalizeRecord e.className raw).title = "")
    ∧ (∀ raw : RawRecord, raw.text = none → (normalizeRecord e.className raw).text = "")
    ∧ (∀ raw : RawRecord, ∀ s, raw.host = some s → (normalizeRecord e.className raw).host = s)
    ∧ e.className ≠ "" := by
  have hcn : e.className ≠ "" := by cases e <;> decide
  refine ⟨?_, ?_, ?_, ?_, ?_, ?_, hcn⟩
  · intro r hr
    simp only [search_engine, List.mem_map] at hr
    obtain ⟨raw, _, rfl⟩ := hr
    exact ⟨rfl, hcn⟩
  · intro raw h
    simp [normalizeRecord, h]
  · intro raw h
    simp [normalizeRecord, h]
  · intro raw h
    simp [normalizeRecord, h]
  · intro raw h
    simp [normalizeRecord, h]
  · intro raw s h
    simp [normalizeRecord, h]

/-- C8 witness: the all-missing raw record normalizes to empty strings, a
present host is kept verbatim, and the Bing tag is non-empty. -/
theorem C8_witness :
    (normalizeRecord Engine.bing.className {}).host = ""
    ∧ (normalizeRecord Engine.bing.className {}).link = ""
    ∧ (normalizeRecord Engine.bing.className {}).title = ""
    ∧ (normalizeRecord Engine.bing.className {}).text = ""
    ∧ (normalizeRecord Engine.bing.className
        { host := some "example.com", link := some "https://a.example/1" }).host = "example.com"
    ∧ Engine.bing.className ≠ "" := by
  have h := C8_normalization_total Engine.bing []
  exact ⟨h.2.1 {} rfl, h.2.2.1 {} rfl, h.2.2.2.1 {} rfl, h.2.2.2.2.1 {} rfl,
    h.2.2.2.2.2.1 { host := some "example.com", link := some "https://a.example/1" }
      "example.com" rfl,
    h.2.2.2.2.2.2⟩

/-- C9: the JSON encoder renders the empty result list as the empty
array "[]", the CSV encoder as the empty document, and the text encoder
as the defined "No results found." sentinel. -/
theorem C9_empty_encodings :
    format_json [] = "[]" ∧ format_csv [] = "" ∧ format_text [] = "No results found." :=
  ⟨rfl, rfl, rfl⟩

/-- C10: with URL-dedup enabled, empty-link records are deduplicated
against each other like any other link value: at most one empty-link
record appears in the aggregate, and when the concatenation holds any
empty-link record the survivor is its first one. -/
theorem C10_empty_links_deduplicated (names : List String) (d : Bool) (runs : List AdapterRun) :
    ((multi_search names true d runs).1).countP (fun r => r.link = "") ≤ 1
    ∧ ∀ r ∈ (sourceLists names runs).flatten, r.link = "" →
        ∃ s ∈ (multi_search names true d runs).1,
          s.link = ""
          ∧ ((sourceLists names runs).flatten.filter (fun y => y.link = "")).head?
              = some s := by
  rw [multi_search_fst]
  unfold aggregate
  constructor
  · apply countP_le_one_of_pairwise
    refine (aggLoop_pairwise _ _).imp ?_
    intro a b hne hab
    rcases hab with ⟨ha, hb⟩
    rw [decide_eq_true_eq] at ha hb
    exact hne (ha.trans hb.symm)
  · intro r hr h0
    rcases aggLoop_cover _ [] r hr with hmem | ⟨s, hs, hlink⟩
    · exact absurd hmem (List.not_mem_nil _)
    · have hs0 : s.link = "" := by rw [hlink, h0]
      refine ⟨s, hs, hs0, ?_⟩
      have hh := (aggLoop_mem _ [] s hs).2
      simpa [hs0] using hh

/-- C10 witness: two empty-link records from one source leave the first
normalized record as the unique empty-link survivor. -/
theorem C10_witness :
    ∃ s ∈ (multi_search ["bing"] true false
        [Except.ok [{ title := some "first" }, { title := some "second" }]]).1,
      s.link = ""
      ∧ ((sourceLists ["bing"]
            [Except.ok [{ title := some "first" }, { title := some "second" }]]).flatten.filter
          (fun y => y.link = "")).head? = some s := by
  have h := C10_empty_links_deduplicated ["bing"] false
      [Except.ok [{ title := some "first" }, { title := some "second" }]]
  exact h.2 (normalizeRecord "Bing" { title := some "first" }) (by decide) rfl

end WebMultiSearch
